import Mathlib

/-!
Verification of the column reconciliation engine of `src/app/static/js/app.js`
against its specification.

The source is browser JavaScript.  Its strings are modelled as Lean `String`
(in this toolchain a wrapper around `List Char`), with the JS string
operations (`toLowerCase`, `includes`, `trim`, truthiness of a string) spelled
out below.  Case mapping is modelled with `Char.toLower`, which agrees with
the JS `toLowerCase` on the ASCII data this application handles.

A JS property read on the object literal `mappings` (app.js line 332) is not a
plain table lookup: a key that is absent from the literal but present on
`Object.prototype` (such as "constructor" or "toString") yields the inherited
value, which is truthy and not iterable, so the subsequent
`for (const mapping of targetMappings)` loop raises a `TypeError`.  The model
keeps that behaviour: `findBestMatch` returns `Except JsError (Option String)`
and the inherited-key path produces `.error .typeError`.
-/

namespace Commissions

/-- Decidable equality for `Except`, needed to evaluate model runs with
`decide`. -/
instance instDecEqExcept {ε α : Type} [DecidableEq ε] [DecidableEq α] :
    DecidableEq (Except ε α)
  | .ok a, .ok b =>
    if h : a = b then isTrue (by rw [h]) else isFalse (fun hh => h (Except.ok.inj hh))
  | .error e, .error f =>
    if h : e = f then isTrue (by rw [h]) else isFalse (fun hh => h (Except.error.inj hh))
  | .ok _, .error _ => isFalse fun hh => Except.noConfusion hh
  | .error _, .ok _ => isFalse fun hh => Except.noConfusion hh

/-- JS `s.toLowerCase()`, modelled characterwise. -/
def jsToLower (s : String) : String := ⟨s.data.map Char.toLower⟩

/-- `sub` occurs as a contiguous run inside the character list (second
argument).  Scans left to right, matching JS `String.prototype.includes`. -/
def containsSub (sub : List Char) : List Char → Bool
  | [] => sub.isEmpty
  | c :: t => sub.isPrefixOf (c :: t) || containsSub sub t

/-- JS `s.includes(sub)`. -/
def jsIncludes (s sub : String) : Bool := containsSub sub.data s.data

/-- JS `s.trim()`: strip whitespace from both ends. -/
def jsTrim (s : String) : String :=
  ⟨((s.data.dropWhile Char.isWhitespace).reverse.dropWhile Char.isWhitespace).reverse⟩

/-- JS truthiness applied to an optional string, as in `if (exact) ...`:
`undefined` and the empty string are both falsy. -/
def jsTruthyStr : Option String → Option String
  | some s => if s = "" then none else some s
  | none => none

/-- app.js lines 20-25: the canonical template columns (Policy And
Transactions Template). -/
def templateColumns : List String :=
  ["PolicyNo", "PHFirst", "PHLast", "Status", "Issuer", "State", "ProductType",
   "PlanName", "SubmittedDate", "EffectiveDate", "TermDate", "PaySched", "PayCode",
   "WritingAgentID", "Premium", "CommPrem", "TranDate", "CommReceived", "PTD",
   "NoPayMon", "MemberCount", "Note"]

/-- app.js lines 332-344: the synonym table `const mappings`, in declaration
order. -/
def mappings : List (String × List String) :=
  [("policyno", ["policy", "policy_number", "policynumber", "pol_no", "policy_no"]),
   ("phfirst", ["first", "firstname", "first_name", "fname", "insured_first"]),
   ("phlast", ["last", "lastname", "last_name", "lname", "insured_last"]),
   ("premium", ["prem", "amount", "premium_amount"]),
   ("effectivedate", ["effective", "eff_date", "effdate", "start_date"]),
   ("termdate", ["term", "termination", "end_date", "cancel_date"]),
   ("commreceived", ["commission", "comm", "comm_amt", "commission_amount"]),
   ("writingagentid", ["agent", "agentid", "agent_id", "writing_agent", "producer"]),
   ("trandate", ["transaction_date", "trans_date", "date"]),
   ("state", ["st", "state_code"]),
   ("issuer", ["carrier", "company", "insurance_company"])]

/-- The property names every plain JS object literal inherits from
`Object.prototype`.  Reading one of them off the `mappings` literal yields a
truthy, non-iterable value (a function, or for "__proto__" an object). -/
def objectPrototypeProps : List String :=
  ["constructor", "hasOwnProperty", "isPrototypeOf", "propertyIsEnumerable",
   "toLocaleString", "toString", "valueOf", "__defineGetter__", "__defineSetter__",
   "__lookupGetter__", "__lookupSetter__", "__proto__"]

/-- The one JS exception the model can raise: the `TypeError` thrown by
`for (const mapping of targetMappings)` when `targetMappings` is truthy but
not iterable. -/
inductive JsError where
  | typeError
deriving DecidableEq

/-- Result of the JS property read `mappings[targetLower]` (app.js line
346). -/
inductive PropRead where
  | own (syns : List String)
  | inheritedTruthy
  | undefinedRead
deriving DecidableEq

/-- The property read `mappings[targetLower]`: an own key of the literal gives
its synonym list; an `Object.prototype` key gives the inherited (truthy,
non-iterable) value; anything else is `undefined`. -/
def readMappings (key : String) : PropRead :=
  match mappings.find? (fun p => p.1 == key) with
  | some p => .own p.2
  | none => if objectPrototypeProps.contains key then .inheritedTruthy else .undefinedRead

/-- app.js lines 347-352: the loop `for (const mapping of targetMappings)`.
For each synonym, `sourceColumns.find(col => col.toLowerCase().includes(mapping))`
is consulted; `if (match) return match` returns a truthy hit and lets a falsy
one (the empty string) fall through to the next synonym. -/
def synonymScan (sourceColumns : List String) : List String → Option String
  | [] => none
  | syn :: rest =>
    match sourceColumns.find? (fun col => jsIncludes (jsToLower col) syn) with
    | some m => if m = "" then synonymScan sourceColumns rest else some m
    | none => synonymScan sourceColumns rest

/-- app.js lines 318-355, `findBestMatch(targetCol, sourceColumns)`:
exact case-insensitive match first (`if (exact) return exact`), then
two-sided substring match (`if (partial) return partial`), then the synonym
table, else `null`.  The `if (...)` guards use JS truthiness, so an
empty-string find result falls through to the next rule. -/
def findBestMatch (targetCol : String) (sourceColumns : List String) :
    Except JsError (Option String) :=
  let targetLower := jsToLower targetCol
  match jsTruthyStr (sourceColumns.find? fun col => jsToLower col == targetLower) with
  | some exact => .ok (some exact)
  | none =>
    match jsTruthyStr (sourceColumns.find? fun col =>
        jsIncludes (jsToLower col) targetLower || jsIncludes targetLower (jsToLower col)) with
    | some hit => .ok (some hit)
    | none =>
      match readMappings targetLower with
      | .own syns => .ok (synonymScan sourceColumns syns)
      | .inheritedTruthy => .error .typeError
      | .undefinedRead => .ok none

/-- One row of the manual mapping grid: the canonical field it targets, the
values of its option list, and the select's current value. -/
structure MappingSelect where
  target : String
  options : List String
  selected : String
deriving DecidableEq

/-- app.js lines 297-315, the body of the `templateColumns.forEach` loop of
`buildMappingUI`, one item per canonical field: the option list is the
placeholder "" followed by the source columns, and the select's value is the
auto-match when it is one of the source columns (the `selected` attribute on
the matching option), else the placeholder.  An exception from
`findBestMatch` propagates. -/
def buildMappingItems (sourceColumns : List String) :
    List String → Except JsError (List MappingSelect)
  | [] => .ok []
  | t :: ts =>
    match findBestMatch t sourceColumns with
    | .error e => .error e
    | .ok m =>
      match buildMappingItems sourceColumns ts with
      | .error e => .error e
      | .ok rest =>
        .ok ({ target := t, options := "" :: sourceColumns,
               selected := match m with
                 | some c => if sourceColumns.contains c then c else ""
                 | none => "" } :: rest)

/-- app.js lines 293-316, `buildMappingUI(sourceColumns)`: one mapping select
per canonical field of `templateColumns`, in template order. -/
def buildMappingUI (sourceColumns : List String) : Except JsError (List MappingSelect) :=
  buildMappingItems sourceColumns templateColumns

/-- app.js lines 397-404 in `processFile`: collect `column_mappings` from the
mapping grid; `if (source) { mappings[target] = source; }` adds a key only
when the select's value is truthy (non-empty). -/
def collectColumnMappings (selects : List MappingSelect) : List (String × String) :=
  selects.filterMap fun s =>
    if s.selected = "" then none else some (s.target, s.selected)

/-- An operator override of the mapping grid: every select keeps its target
and option list, and its value becomes the operator's choice for that
target. -/
def overrideSelects (selects : List MappingSelect) (choice : String → String) :
    List MappingSelect :=
  selects.map fun s => { s with selected := choice s.target }

/-- Spec 4.1 rule 3, stated from the spec's words: "For each synonym in
order, scan candidates in order for one whose lowercased form contains the
synonym as a substring; return the first hit."  (Unlike the code's
`synonymScan`, no truthiness guard: the first hit is returned as is.) -/
def synonymLookupSpec (sourceColumns : List String) : List String → Option String
  | [] => none
  | syn :: rest =>
    match sourceColumns.find? (fun col => jsIncludes (jsToLower col) syn) with
    | some m => some m
    | none => synonymLookupSpec sourceColumns rest

/-- One entry of `availableOutputs` (an `OutputSpec` of the spec). -/
structure OutputSpec where
  type : String
  name : String
  template : String
deriving DecidableEq

/-- Outcome of the `/api/available-outputs` request as observed by the
client: the request threw, or it produced a response body with a `success`
flag and a list of outputs. -/
inductive AvailOutcome where
  | threw
  | responded (success : Bool) (available_outputs : List OutputSpec)
deriving DecidableEq

/-- app.js lines 222-241, `checkAvailableOutputs`, as a function from the
previous value of the global `availableOutputs` and the request outcome to
its new value: `if (data.success)` stores the response's list (an
unsuccessful response leaves the global untouched); the `catch` block stores
the single hard-coded commission default. -/
def checkAvailableOutputs (prev : List OutputSpec) : AvailOutcome → List OutputSpec
  | .responded true outs => outs
  | .responded false _ => prev
  | .threw => [{ type := "commission", name := "Commission",
                 template := "Policy And Transactions" }]

/-- The session globals touched by `confirmCarrier` before the request is
sent (app.js lines 4-6): `carrierName` and `fileType`. -/
structure SessionState where
  carrierName : String
  fileType : String
deriving DecidableEq

/-- The form values `confirmCarrier` reads: the carrier dropdown
(`carrierNameSelect`), the new-carrier text input, and the file-type
select. -/
structure ConfirmUI where
  selectValue : String
  newCarrierInputValue : String
  fileTypeSelectValue : String
deriving DecidableEq

/-- The `/api/confirm-carrier` request body fields this model tracks. -/
structure ConfirmRequest where
  carrier_name : String
  file_type : String
deriving DecidableEq

/-- app.js lines 175-207, `confirmCarrier` up to the send decision: first
`fileType` is overwritten from the file-type select, then the carrier name is
taken from the dropdown (or, for the `__new__` choice, the trimmed text
input) and written to `carrierName`; if that name is empty the function
alerts and returns without sending, otherwise the confirm-carrier request is
sent. -/
def confirmCarrier (st : SessionState) (ui : ConfirmUI) :
    SessionState × Option ConfirmRequest :=
  let st1 : SessionState := { st with fileType := ui.fileTypeSelectValue }
  if ui.selectValue = "__new__" then
    let nm := jsTrim ui.newCarrierInputValue
    let st2 : SessionState := { st1 with carrierName := nm }
    if nm = "" then (st2, none)
    else (st2, some { carrier_name := nm, file_type := st1.fileType })
  else
    let st2 : SessionState := { st1 with carrierName := ui.selectValue }
    if ui.selectValue = "" then (st2, none)
    else (st2, some { carrier_name := ui.selectValue, file_type := st1.fileType })

/-- The carrier name the operator chose in the confirm dialog: the trimmed
text input when the dropdown is on the `__new__` entry, else the dropdown
value. -/
def chosenCarrierName (ui : ConfirmUI) : String :=
  if ui.selectValue = "__new__" then jsTrim ui.newCarrierInputValue else ui.selectValue

/-- A concrete mapping grid shared by several evaluation theorems: the grid
`buildMappingUI` produces for the single source column "Prem Amt" (only the
canonical field Premium auto-matches, through the synonym "prem"). -/
def demoSelects : List MappingSelect :=
  templateColumns.map fun t =>
    { target := t, options := ["", "Prem Amt"],
      selected := if t = "Premium" then "Prem Amt" else "" }

/-! Helper lemmas. -/

/-- Lowercasing maps only the empty string to the empty string. -/
theorem jsToLower_eq_empty {s : String} (h : jsToLower s = "") : s = "" := by
  have h1 : s.data.map Char.toLower = [] := congrArg String.data h
  have h2 : s.data = [] := List.map_eq_nil_iff.mp h1
  cases s with
  | mk l =>
    simp only at h2
    subst h2
    rfl

/-- The empty string is a substring of every string (JS
`s.includes("") === true`). -/
theorem jsIncludes_empty (s : String) : jsIncludes s "" = true := by
  show containsSub [] s.data = true
  induction s.data with
  | nil => rfl
  | cons c t ih => simp [containsSub, List.isPrefixOf]

/-- Structure of a successfully built mapping grid: one select per requested
target, in order, each offering the placeholder plus the source columns. -/
theorem buildMappingItems_ok (cols : List String) :
    ∀ (ts : List String) (selects : List MappingSelect),
      buildMappingItems cols ts = Except.ok selects →
      selects.map (fun s => s.target) = ts ∧ ∀ s ∈ selects, s.options = "" :: cols := by
  intro ts
  induction ts with
  | nil =>
    intro selects h
    have h2 : ([] : List MappingSelect) = selects := Except.ok.inj h
    subst h2
    exact ⟨rfl, fun s hs => absurd hs (List.not_mem_nil s)⟩
  | cons t ts ih =>
    intro selects h
    simp only [buildMappingItems] at h
    cases hfm : findBestMatch t cols with
    | error e => rw [hfm] at h; exact Except.noConfusion h
    | ok m =>
      rw [hfm] at h
      cases hrest : buildMappingItems cols ts with
      | error e => rw [hrest] at h; exact Except.noConfusion h
      | ok rest =>
        rw [hrest] at h
        have h2 := Except.ok.inj h
        subst h2
        obtain ⟨ih1, ih2⟩ := ih rest hrest
        constructor
        · simp [ih1]
        · intro s hs
          rcases List.mem_cons.mp hs with h3 | h3
          · subst h3; rfl
          · exact ih2 s h3

/-- The grid built for the single source column "Prem Amt" is `demoSelects`. -/
theorem buildMappingUI_demoSelects : buildMappingUI ["Prem Amt"] = Except.ok demoSelects := by
  decide

/-! Claim theorems. -/

/-- C1 (amended): for the upload whose source columns are exactly
["Policy #", "First", "Last", "Prem Amt"], the automatically built mapping
sends PolicyNo to "Policy #", PHFirst to "First", PHLast to "Last", Premium
to "Prem Amt", additionally State to "First" (through the synonym "st",
which occurs inside "first"), and leaves every other canonical field
unmapped. -/
theorem acme_auto_mapping :
    (buildMappingUI ["Policy #", "First", "Last", "Prem Amt"]).map
        (fun selects => selects.map fun s => (s.target, s.selected)) =
      Except.ok
        [("PolicyNo", "Policy #"), ("PHFirst", "First"), ("PHLast", "Last"),
         ("Status", ""), ("Issuer", ""), ("State", "First"), ("ProductType", ""),
         ("PlanName", ""), ("SubmittedDate", ""), ("EffectiveDate", ""),
         ("TermDate", ""), ("PaySched", ""), ("PayCode", ""),
         ("WritingAgentID", ""), ("Premium", "Prem Amt"), ("CommPrem", ""),
         ("TranDate", ""), ("CommReceived", ""), ("PTD", ""), ("NoPayMon", ""),
         ("MemberCount", ""), ("Note", "")] := by
  decide

/-- C1 counterexample: the claim says `findBestMatch` returns none for every
remaining canonical field, State included; in fact the State synonym "st"
matches inside "First", so State is auto-mapped to "First", not left
unmapped. -/
theorem acme_auto_mapping_cex :
    findBestMatch "State" ["Policy #", "First", "Last", "Prem Amt"] =
        Except.ok (some "First") ∧
    Except.ok (some "First") ≠ (Except.ok none : Except JsError (Option String)) := by
  decide

/-- C2 (amended): for every non-empty target field name, if some candidate's
lowercased form equals the lowercased target then `findBestMatch` returns the
first such candidate in input order, and no later rule influences the
result. -/
theorem exact_match_first (t : String) (cols : List String) (c : String)
    (ht : t ≠ "")
    (hfind : cols.find? (fun col => jsToLower col == jsToLower t) = some c) :
    findBestMatch t cols = Except.ok (some c) := by
  have hc : jsToLower c = jsToLower t := by
    have h1 := List.find?_some hfind
    simpa using h1
  have hcne : c ≠ "" := by
    intro h0
    have h3 : jsToLower t = "" := by rw [← hc, h0]; rfl
    exact ht (jsToLower_eq_empty h3)
  simp [findBestMatch, hfind, jsTruthyStr, hcne]

/-- C2 witness: "policyNO" is an exact case-insensitive match for "PolicyNo"
and is returned ahead of the substring/synonym candidate "Policy". -/
theorem exact_match_first_witness :
    findBestMatch "PolicyNo" ["policyNO", "Policy"] = Except.ok (some "policyNO") :=
  exact_match_first "PolicyNo" ["policyNO", "Policy"] "policyNO" (by decide) (by decide)

/-- C2 counterexample: with the empty target "" the candidate "" is an exact
case-insensitive match (the first in input order), yet `findBestMatch` returns
none: `if (exact) return exact` treats the empty string as falsy and falls
through, and no later rule fires. -/
theorem exact_match_empty_target_cex :
    List.find? (fun col => jsToLower col == jsToLower "") [""] = some "" ∧
    findBestMatch "" [""] = Except.ok none := by
  decide

/-- C3 (amended): for every target and candidate list with no exact
case-insensitive match, if the first candidate (in input order) satisfying
the two-sided substring test is non-empty, `findBestMatch` returns it.  (A
first hit equal to the empty string is falsy in `if (partial)` and the rule
is skipped.) -/
theorem substring_match_first (t : String) (cols : List String) (c : String)
    (hnoexact : ∀ col ∈ cols, jsToLower col ≠ jsToLower t)
    (hfind : cols.find? (fun col =>
        jsIncludes (jsToLower col) (jsToLower t) ||
          jsIncludes (jsToLower t) (jsToLower col)) = some c)
    (hcne : c ≠ "") :
    findBestMatch t cols = Except.ok (some c) := by
  have hex : cols.find? (fun col => jsToLower col == jsToLower t) = none := by
    rw [List.find?_eq_none]
    intro col hcol
    simpa using hnoexact col hcol
  simp [findBestMatch, hex, hfind, jsTruthyStr, hcne]

/-- C3 witness: "First" is not an exact match for "PHFirst" but "phfirst"
contains "first", so the substring rule returns it. -/
theorem substring_match_first_witness :
    findBestMatch "PHFirst" ["Policy", "First"] = Except.ok (some "First") :=
  substring_match_first "PHFirst" ["Policy", "First"] "First"
    (by decide) (by decide) (by decide)

/-- C3 counterexample: the empty candidate "" is contained in "state" (so the
substring rule applies and no exact match exists), yet `findBestMatch` returns
none instead of "": the empty find result is falsy in `if (partial)`. -/
theorem substring_match_empty_candidate_cex :
    jsToLower "" ≠ jsToLower "State" ∧
    jsIncludes (jsToLower "State") (jsToLower "") = true ∧
    findBestMatch "State" [""] = Except.ok none := by
  decide

/-- C4 (confirmed): when no exact and no substring rule fires and the
lowercased target is a key of the synonym table, `findBestMatch` returns
exactly what the spec's synonym procedure prescribes: for each synonym in
table order, the first candidate in input order whose lowercased form
contains the synonym. -/
theorem synonym_stage_spec (t : String) (cols syns : List String)
    (hsyn : readMappings (jsToLower t) = PropRead.own syns)
    (hnoexact : ∀ col ∈ cols, jsToLower col ≠ jsToLower t)
    (hnosub : ∀ col ∈ cols,
      jsIncludes (jsToLower col) (jsToLower t) = false ∧
        jsIncludes (jsToLower t) (jsToLower col) = false) :
    findBestMatch t cols = Except.ok (synonymLookupSpec cols syns) := by
  have hex : cols.find? (fun col => jsToLower col == jsToLower t) = none := by
    rw [List.find?_eq_none]
    intro col hcol
    simpa using hnoexact col hcol
  have hsub : cols.find? (fun col =>
      jsIncludes (jsToLower col) (jsToLower t) ||
        jsIncludes (jsToLower t) (jsToLower col)) = none := by
    rw [List.find?_eq_none]
    intro col hcol
    simp [(hnosub col hcol).1, (hnosub col hcol).2]
  have hne : "" ∉ cols := by
    intro hmem
    have h2 := (hnosub "" hmem).2
    simp only [show jsToLower "" = "" from rfl] at h2
    rw [jsIncludes_empty] at h2
    exact absurd h2 (by decide)
  have hscan : ∀ ls : List String, synonymScan cols ls = synonymLookupSpec cols ls := by
    intro ls
    induction ls with
    | nil => rfl
    | cons syn rest ih =>
      simp only [synonymScan, synonymLookupSpec]
      cases hf : cols.find? (fun col => jsIncludes (jsToLower col) syn) with
      | none => simpa using ih
      | some m =>
        have hm : m ∈ cols := List.mem_of_find?_eq_some hf
        have hmne : m ≠ "" := fun h0 => hne (h0 ▸ hm)
        simp [hmne]
  simp [findBestMatch, hex, hsub, jsTruthyStr, hsyn, hscan syns]

/-- C4 witness: the synonym lookup for "policyno" against
["Policy_Number", "Agent"] returns "Policy_Number". -/
theorem synonym_stage_spec_witness :
    findBestMatch "PolicyNo" ["Policy_Number", "Agent"] =
      Except.ok (some "Policy_Number") := by
  have h := synonym_stage_spec "PolicyNo" ["Policy_Number", "Agent"]
    ["policy", "policy_number", "policynumber", "pol_no", "policy_no"]
    (by decide) (by decide) (by decide)
  rw [h]
  decide

/-- C5 (code bug): the claim and the spec say the matcher returns none and
never throws, but for a target such as "Constructor" whose lowercased form is
an `Object.prototype` property name and which has no exact or substring hit,
`mappings[targetLower]` yields the inherited truthy, non-iterable value and
the `for...of` loop throws a TypeError. -/
theorem findBestMatch_constructor_throws :
    findBestMatch "Constructor" [] = Except.error JsError.typeError := by
  decide

/-- C6 (amended): when the availability request throws, `availableOutputs`
becomes exactly the single hard-coded commission default; when the request
yields an unsuccessful response (`success` falsy), `availableOutputs` is left
unchanged — in particular it stays empty, it does not become the single
default the claim describes. -/
theorem availability_fallback (prev outs : List OutputSpec) :
    checkAvailableOutputs prev AvailOutcome.threw =
      [{ type := "commission", name := "Commission",
         template := "Policy And Transactions" }] ∧
    checkAvailableOutputs prev (AvailOutcome.responded false outs) = prev :=
  ⟨rfl, rfl⟩

/-- C6 counterexample: under the unsuccessful-response failure mode the
resolved output list is empty, not the single OutputSpec the claim promises
for every failure mode. -/
theorem availability_fallback_cex :
    checkAvailableOutputs [] (AvailOutcome.responded false []) = [] ∧
    (checkAvailableOutputs [] (AvailOutcome.responded false [])).length ≠ 1 := by
  decide

/-- C7 (amended): `confirmCarrier` sends the confirm-carrier request exactly
when the chosen carrier name (dropdown value, or trimmed text input for the
`__new__` entry) is non-empty; with an empty name it returns without sending,
but it does mutate the session: `fileType` is overwritten with the file-type
select's value and `carrierName` with the empty chosen name. -/
theorem confirmCarrier_gate (st : SessionState) (ui : ConfirmUI) :
    ((confirmCarrier st ui).2.isSome ↔ chosenCarrierName ui ≠ "") ∧
    (chosenCarrierName ui = "" →
      confirmCarrier st ui =
        ({ carrierName := "", fileType := ui.fileTypeSelectValue }, none)) := by
  unfold confirmCarrier chosenCarrierName
  by_cases h1 : ui.selectValue = "__new__"
  · by_cases h2 : jsTrim ui.newCarrierInputValue = "" <;> simp [h1, h2]
  · by_cases h2 : ui.selectValue = "" <;> simp [h1, h2]

/-- C7 witness: a whitespace-only new-carrier entry trims to the empty name,
so no request is sent and the resulting state has the empty carrier name. -/
theorem confirmCarrier_gate_witness :
    confirmCarrier ⟨"", "commission"⟩ ⟨"__new__", "   ", "commission"⟩ =
      ({ carrierName := "", fileType := "commission" }, none) :=
  (confirmCarrier_gate ⟨"", "commission"⟩ ⟨"__new__", "   ", "commission"⟩).2 (by decide)

/-- C7 counterexample: with an empty dropdown choice no request is sent, yet
the session state is changed — `fileType` is overwritten from the file-type
select ("chargeback") and `carrierName` is reset — contradicting the claim
that the function returns without changing session state. -/
theorem confirmCarrier_state_cex :
    confirmCarrier ⟨"Acme", "commission"⟩ ⟨"", "", "chargeback"⟩ =
      ({ carrierName := "", fileType := "chargeback" }, none) ∧
    ({ carrierName := "", fileType := "chargeback" } : SessionState) ≠
      { carrierName := "Acme", fileType := "commission" } := by
  decide

/-- C8 (confirmed): every key/value pair the UI submits as `column_mappings`
has its key among the canonical `templateColumns` and its value among the
current source columns, for every source column list and every operator
selection that picks one of the select's own options. -/
theorem mapping_invariant (cols : List String) (selects : List MappingSelect)
    (choice : String → String)
    (hok : buildMappingUI cols = Except.ok selects)
    (hvalid : ∀ s ∈ selects, choice s.target ∈ s.options)
    (kv : String × String)
    (hkv : kv ∈ collectColumnMappings (overrideSelects selects choice)) :
    kv.1 ∈ templateColumns ∧ kv.2 ∈ cols := by
  obtain ⟨htargets, hopts⟩ := buildMappingItems_ok cols templateColumns selects hok
  simp only [collectColumnMappings, overrideSelects, List.mem_filterMap,
    List.mem_map] at hkv
  obtain ⟨x, ⟨s, hs, rfl⟩, hx⟩ := hkv
  by_cases hch : choice s.target = ""
  · rw [if_pos hch] at hx
    exact Option.noConfusion hx
  · rw [if_neg hch] at hx
    obtain rfl : kv = (s.target, choice s.target) := (Option.some.inj hx).symm
    refine ⟨?_, ?_⟩
    · rw [← htargets]
      exact List.mem_map_of_mem (fun s => s.target) hs
    · have hmem := hvalid s hs
      rw [hopts s hs] at hmem
      rcases List.mem_cons.mp hmem with h0 | h0
      · exact absurd h0 hch
      · exact h0

/-- C8 witness: for the source column list ["Prem Amt"], the override that
selects "Prem Amt" everywhere submits pairs whose keys are canonical fields
and whose values are source columns. -/
theorem mapping_invariant_witness :
    ("Premium" : String) ∈ templateColumns ∧ ("Prem Amt" : String) ∈ ["Prem Amt"] :=
  mapping_invariant ["Prem Amt"] demoSelects (fun _ => "Prem Amt")
    buildMappingUI_demoSelects (by decide) ("Premium", "Prem Amt") (by decide)

/-- C9 (confirmed): after the operator overrides the auto-built grid, the
submitted `column_mappings` is exactly the operator's final per-field
selection over the canonical fields — an expression in which neither the
source columns' auto-matches nor `findBestMatch` occurs, so no re-matching
can influence it. -/
theorem override_roundtrip (cols : List String) (selects : List MappingSelect)
    (choice : String → String)
    (hok : buildMappingUI cols = Except.ok selects) :
    collectColumnMappings (overrideSelects selects choice) =
      templateColumns.filterMap fun t =>
        if choice t = "" then none else some (t, choice t) := by
  have htargets := (buildMappingItems_ok cols templateColumns selects hok).1
  simp only [collectColumnMappings, overrideSelects]
  rw [← htargets, List.filterMap_map, List.filterMap_map]
  rfl

/-- C9 witness: overriding the demo grid to map only PHLast forwards exactly
that single pair. -/
theorem override_roundtrip_witness :
    collectColumnMappings (overrideSelects demoSelects
        (fun t => if t = "PHLast" then "Prem Amt" else "")) =
      [("PHLast", "Prem Amt")] := by
  have h := override_roundtrip ["Prem Amt"] demoSelects
    (fun t => if t = "PHLast" then "Prem Amt" else "") buildMappingUI_demoSelects
  rw [h]
  decide

/-- C10 (confirmed): a canonical field contributes a key to the submitted
`column_mappings` exactly when its select's value is non-empty, and no key is
ever paired with the empty string — an unmapped field is the absence of its
key. -/
theorem column_mappings_nonempty_keys (selects : List MappingSelect) (k v : String) :
    ((k, v) ∈ collectColumnMappings selects → v ≠ "") ∧
    ((∃ s ∈ selects, s.target = k ∧ s.selected ≠ "") ↔
      ∃ w, (k, w) ∈ collectColumnMappings selects) := by
  constructor
  · intro hmem
    simp only [collectColumnMappings, List.mem_filterMap] at hmem
    obtain ⟨s, hs, hx⟩ := hmem
    by_cases h0 : s.selected = ""
    · rw [if_pos h0] at hx
      exact Option.noConfusion hx
    · rw [if_neg h0] at hx
      have h2 : s.selected = v := congrArg Prod.snd (Option.some.inj hx)
      rw [← h2]
      exact h0
  · constructor
    · rintro ⟨s, hs, htgt, hne⟩
      refine ⟨s.selected, ?_⟩
      simp only [collectColumnMappings, List.mem_filterMap]
      exact ⟨s, hs, by rw [if_neg hne, htgt]⟩
    · rintro ⟨w, hw⟩
      simp only [collectColumnMappings, List.mem_filterMap] at hw
      obtain ⟨s, hs, hx⟩ := hw
      by_cases h0 : s.selected = ""
      · rw [if_pos h0] at hx
        exact Option.noConfusion hx
      · rw [if_neg h0] at hx
        exact ⟨s, hs, congrArg Prod.fst (Option.some.inj hx), h0⟩

/-- C10 witness: in the demo grid the Premium select is non-empty, its pair
is present, and the forwarded value is non-empty. -/
theorem column_mappings_nonempty_keys_witness :
    ("Premium", "Prem Amt") ∈ collectColumnMappings demoSelects ∧
      ("Prem Amt" : String) ≠ "" :=
  ⟨by decide,
    (column_mappings_nonempty_keys demoSelects "Premium" "Prem Amt").1 (by decide)⟩

end Commissions
